import Mathlib

/-!
Shallow embedding of the core batch job-queue and package-assembly pipeline of
the solana-nft-collection-generator repository.

Part I embeds the direct-image flow of `src/backend/server.js`: the rarity-plan
expander `createJobQueue`, the zero-padded numbering of the `/api/generate`
endpoint, and the archive membership it produces.

Part II embeds the AI-studio flow: the `Job` model
(`src/ai-nft-studio/backend/models` job table operations), the `JobService`
batch orchestrator with its `isProcessing` single-flight flag, the
`regenerateJob` operation and its HTTP route gate, and the
`MetadataService.createCollectionPackage` archive assembly.

External collaborators (the image-generation provider, the storage layer, the
file system) are modelled as oracles or explicit state: image generation is a
function from job id to a path or a provider error; the file system is the set
of existing paths; a thrown JavaScript exception is an `Except.error` carrying
the message together with the state as already mutated at the throw point.
-/

namespace NFTGen

/-! ## Part I: direct-image flow (`src/backend/server.js`) -/

/-- A rarity tier as consumed by `createJobQueue` (server.js line 46):
fields `type`, `nftCount`, `editionsPerImage`, `artIdPrefix`, `images`.
Image contents are opaque; an image is kept as an identifying reference. -/
structure RarityTier where
  type : String
  nftCount : Nat
  editionsPerImage : Nat
  artIdPrefix : String
  images : List String
  deriving Repr, DecidableEq

/-- One job-seed record pushed onto the queue (server.js lines 57-64). -/
structure JobSeed where
  sourceImage : String
  rarityTier : String
  artId : String
  editionNumber : Nat
  editionTotal : Nat
  globalIndex : Nat
  deriving Repr, DecidableEq

/-- `Math.ceil(nftCount / editionsPerImage)` on naturals (server.js line 47). -/
def imagesNeeded (nftCount editionsPerImage : Nat) : Nat :=
  (nftCount + editionsPerImage - 1) / editionsPerImage

/-- `Math.min(editionsPerImage, nftCount - imageIndex * editionsPerImage)`
(server.js line 54). -/
def editionsForImage (nftCount editionsPerImage imageIndex : Nat) : Nat :=
  min editionsPerImage (nftCount - imageIndex * editionsPerImage)

/-- The inner edition loop (server.js lines 56-65): the seeds pushed for one
source image, `cur` being the value of the running `currentIndex` counter on
entry to the loop. -/
def imageJobs (t : RarityTier) (imageIndex cur : Nat) : List JobSeed :=
  (List.range (editionsForImage t.nftCount t.editionsPerImage imageIndex)).map fun e =>
    { sourceImage := t.images.getD imageIndex ""
      rarityTier := t.type
      artId := RarityTier.artIdPrefix t ++ "-" ++ toString (imageIndex + 1)
      editionNumber := e + 1
      editionTotal := editionsForImage t.nftCount t.editionsPerImage imageIndex
      globalIndex := cur + e }

/-- The per-tier image loop (server.js lines 53-66), iterating over the image
indices still to process and threading the `currentIndex` counter. -/
def tierJobsAux (t : RarityTier) : List Nat → Nat → List JobSeed
  | [], _ => []
  | i :: rest, cur =>
      imageJobs t i cur ++
        tierJobsAux t rest (cur + editionsForImage t.nftCount t.editionsPerImage i)

/-- All seeds produced for one tier when the running counter is `cur`. -/
def tierJobs (t : RarityTier) (cur : Nat) : List JobSeed :=
  tierJobsAux t (List.range (imagesNeeded t.nftCount t.editionsPerImage)) cur

/-- The number of seeds one tier contributes to the queue. -/
def tierSeedCount (t : RarityTier) : Nat :=
  ((List.range (imagesNeeded t.nftCount t.editionsPerImage)).map
    (editionsForImage t.nftCount t.editionsPerImage)).sum

/-- The message of the exception thrown at server.js line 50. -/
def tierErrorMsg (t : RarityTier) : String :=
  "Tier \"" ++ t.type ++ "\" needs " ++
    toString (imagesNeeded t.nftCount t.editionsPerImage) ++
    " images but only " ++ toString t.images.length ++ " provided"

/-- The tier loop of `createJobQueue` (server.js lines 45-67); a thrown
exception aborts the whole expansion, so later seeds are never produced and
earlier seeds are discarded with the throw. -/
def createJobQueueAux : List RarityTier → Nat → Except String (List JobSeed)
  | [], _ => .ok []
  | t :: rest, cur =>
      if t.images.length < imagesNeeded t.nftCount t.editionsPerImage then
        .error (tierErrorMsg t)
      else
        match createJobQueueAux rest (cur + tierSeedCount t) with
        | .error e => .error e
        | .ok q => .ok (tierJobs t cur ++ q)

/-- `createJobQueue(rarityTiers, totalSupply)` (server.js lines 41-70). The
`totalSupply` argument is unused by the source function itself; the caller
compares the queue length against it afterwards (server.js lines 211-215). -/
def createJobQueue (rarityTiers : List RarityTier) (_totalSupply : Nat) :
    Except String (List JobSeed) :=
  createJobQueueAux rarityTiers 0

/-! ### Zero-padded numbering and the `/api/generate` archive -/

/-- `s.padStart(width, "0")` from JavaScript: prepend zeros until the length
is at least `width` (server.js line 227 uses `String(i).padStart(5, "0")`). -/
def jsPadStart (width : Nat) (s : String) : String :=
  ⟨List.replicate (width - s.length) '0' ++ s.data⟩

/-- The padded index used for both the image and the metadata file names and
inside the metadata `name` field (server.js lines 227, 103, 107, 257-258). -/
def paddedIndex (i : Nat) : String :=
  jsPadStart 5 (Nat.repr i)

/-- The number of decimal digits of `n`: the length of its decimal rendering,
exactly as produced by `String(n)` in the source. -/
def digitCount (n : Nat) : Nat :=
  (Nat.toDigits 10 n).length

/-- Reference digit-count function used to reason about `digitCount`. -/
def dcount (n : Nat) : Nat :=
  if n < 10 then 1 else dcount (n / 10) + 1
decreasing_by exact Nat.div_lt_self (by omega) (by omega)

/-- The archive entry names produced by the processing loop of
`/api/generate` (server.js lines 226-258): for every index below the total
supply, one image entry and one metadata entry named by the padded index. -/
def generateEntries (totalSupply : Nat) : List String :=
  (List.range totalSupply).flatMap fun i =>
    ["images/" ++ paddedIndex i ++ ".png", "json/" ++ paddedIndex i ++ ".json"]

/-- The `/api/generate` handler up to archive membership (server.js
lines 209-258): expand the plan, check the declared supply, then build the
archive. A thrown `createJobQueue` error or a supply mismatch produces an
error response before any archive entry is created. -/
def generateEndpoint (rarityTiers : List RarityTier) (totalSupply : Nat) :
    Except String (List String) :=
  match createJobQueue rarityTiers totalSupply with
  | .error e => .error e
  | .ok jobQueue =>
      if jobQueue.length ≠ totalSupply then
        .error ("Job queue length (" ++ toString jobQueue.length ++
          ") does not match total supply (" ++ toString totalSupply ++ ")")
      else
        .ok (generateEntries totalSupply)

/-! ## Part II: AI-studio flow (`src/ai-nft-studio`) -/

/-- The `status` column of the `jobs` table: the job state machine of the
studio (`pending`, `generating`, `generated`, `approved`, `error`). -/
inductive JobStatus
  | pending
  | generating
  | generated
  | approved
  | error
  deriving Repr, DecidableEq

/-- One row of the `jobs` table (`models` Job constructor). -/
structure JobRec where
  id : Nat
  collection_id : Nat
  edition_number : Nat
  edition_in_drop : Nat
  status : JobStatus
  image_path : Option String
  metadata_path : Option String
  error_message : Option String
  retry_count : Nat
  ai_prompt : String
  deriving Repr, DecidableEq

/-- The `jobs` table. -/
abbrev Store := List JobRec

/-- `SELECT * FROM jobs WHERE id = ?` (`Job.findById`). -/
def getJob (store : Store) (id : Nat) : Option JobRec :=
  store.find? fun r => r.id == id

/-- An `UPDATE jobs SET ... WHERE id = ?`: apply `f` to every row whose
primary key matches `id`. -/
def updateJob (store : Store) (id : Nat) (f : JobRec → JobRec) : Store :=
  store.map fun r => if r.id = id then f r else r

/-- `Job.updateStatus(id, status)` with no additional data
(models Job lines 326-352). -/
def updateStatus (store : Store) (id : Nat) (st : JobStatus) : Store :=
  updateJob store id fun r => { r with status := st }

/-- `Job.updateStatus(id, status, { image_path })`. -/
def updateStatusImage (store : Store) (id : Nat) (st : JobStatus)
    (p : Option String) : Store :=
  updateJob store id fun r => { r with status := st, image_path := p }

/-- `Job.updateStatus(id, status, { error_message })`. -/
def updateStatusErrMsg (store : Store) (id : Nat) (st : JobStatus)
    (e : Option String) : Store :=
  updateJob store id fun r => { r with status := st, error_message := e }

/-- `Job.updateStatus(id, status, { image_path: null, metadata_path: null,
error_message: null })` as issued by `regenerateJob` (README 496-500). -/
def updateStatusClear (store : Store) (id : Nat) (st : JobStatus) : Store :=
  updateJob store id fun r =>
    { r with status := st, image_path := none, metadata_path := none,
             error_message := none }

/-- `Job.incrementRetryCount(id)` (models Job lines 354-370):
`retry_count = retry_count + 1` for the matching row. -/
def incrementRetryCount (store : Store) (id : Nat) : Store :=
  updateJob store id fun r => { r with retry_count := r.retry_count + 1 }

/-- Insertion of one row into a list sorted by ascending `edition_number`. -/
def insertByEdition (j : JobRec) : List JobRec → List JobRec
  | [] => [j]
  | k :: rest =>
      if j.edition_number ≤ k.edition_number then j :: k :: rest
      else k :: insertByEdition j rest

/-- `ORDER BY edition_number ASC` (models Job line 307). -/
def sortByEdition : List JobRec → List JobRec
  | [] => []
  | j :: rest => insertByEdition j (sortByEdition rest)

/-- `Job.findByCollectionId(collectionId, status, limit)`
(models Job lines 297-324): filter by collection and optional status, order by
ascending edition number, apply the optional `LIMIT`. -/
def findByCollectionId (store : Store) (collectionId : Nat)
    (status : Option JobStatus) (limit : Option Nat) : List JobRec :=
  let filtered := store.filter fun r =>
    r.collection_id == collectionId &&
      match status with
      | none => true
      | some st => r.status == st
  let sorted := sortByEdition filtered
  match limit with
  | none => sorted
  | some l => sorted.take l

/-- The storage state seen by the studio services: the `jobs` table plus the
file system, modelled as the set of existing paths. -/
structure DiskState where
  store : Store
  fs : List String
  deriving Repr, DecidableEq

/-- `JobService.processJob(job)` (README 423-443): set the job `generating`,
call the external image generator (the oracle `gen`, which either yields the
path of the written image file or raises a provider error), then set the job
`generated` with the image path. A raised error leaves the job `generating`
and propagates. -/
def processJob (gen : Nat → Except String String) (d : DiskState)
    (job : JobRec) : Except (String × DiskState) DiskState :=
  let s1 := updateStatus d.store job.id .generating
  match gen job.id with
  | .ok p =>
      .ok { store := updateStatusImage s1 job.id .generated (some p),
            fs := p :: d.fs }
  | .error e => .error (e, { d with store := s1 })

/-- The per-job loop shared by `processInitialBatch` (README 346-359) and
`continueBatchProcessing` (README 393-406): a failure on one job marks that
job `error` with the message stored, increments its retry count, and the loop
continues with the next job. Returns the final state and `processedJobs`,
the jobs whose generation succeeded, in processing order. -/
def batchLoop (gen : Nat → Except String String) :
    DiskState → List JobRec → DiskState × List JobRec
  | d, [] => (d, [])
  | d, job :: rest =>
      match processJob gen d job with
      | .ok d2 =>
          let (d3, processed) := batchLoop gen d2 rest
          (d3, job :: processed)
      | .error (e, d2) =>
          let d3 : DiskState :=
            { d2 with store :=
                (incrementRetryCount
                  (updateStatusErrMsg d2.store job.id .error (some e)) job.id) }
          batchLoop gen d3 rest

/-- Whether the generation oracle succeeds on a job. -/
def genSucceeds (gen : Nat → Except String String) (j : JobRec) : Bool :=
  match gen j.id with
  | .ok _ => true
  | .error _ => false

/-- The net effect of one batch-loop iteration on the record of the job it
processes: on success the row becomes `generated` with the image path
stored; on failure it becomes `error` with the provider message stored and
the retry count incremented by one. -/
def applyOutcome (gen : Nat → Except String String) (j r : JobRec) : JobRec :=
  match gen j.id with
  | .ok p => { r with status := .generated, image_path := some p }
  | .error e =>
      { r with status := .error, error_message := some e,
               retry_count := r.retry_count + 1 }

/-- Disk state holding the two pending jobs of collection 1. -/
def twoJobDisk : DiskState :=
  { store := [{ id := 1, collection_id := 1, edition_number := 1,
                edition_in_drop := 1, status := JobStatus.pending,
                image_path := none, metadata_path := none,
                error_message := none, retry_count := 0,
                ai_prompt := "a prompt" },
              { id := 2, collection_id := 1, edition_number := 2,
                edition_in_drop := 2, status := JobStatus.pending,
                image_path := none, metadata_path := none,
                error_message := none, retry_count := 0,
                ai_prompt := "a prompt" }],
    fs := [] }

/-- The in-memory state of the `JobService` singleton together with storage:
`isProcessing` is the module-wide single-flight flag (README 302). -/
structure SvcState where
  isProcessing : Bool
  disk : DiskState
  deriving Repr, DecidableEq

/-- `INITIAL_BATCH_SIZE` default (README 304). -/
def initialBatchSize : Nat := 3

/-- `CONTINUE_BATCH_SIZE` default (README 305). -/
def continueBatchSize : Nat := 100

/-- `JobService.processInitialBatch(collectionId)` (README 331-369).
`fetchErr` injects a storage-layer failure of the pending-jobs query (`none`
means the query succeeds). Every exception is routed through the catch block,
which resets `isProcessing` to `false` and rethrows; the error value carries
the state as mutated at that point. -/
def processInitialBatch (gen : Nat → Except String String)
    (fetchErr : Option String) (collectionId : Nat) (s : SvcState) :
    Except (String × SvcState) (List JobRec × SvcState) :=
  if s.isProcessing then
    .error ("Job processing already in progress", { s with isProcessing := false })
  else
    let s1 : SvcState := { s with isProcessing := true }
    match fetchErr with
    | some e => .error (e, { s1 with isProcessing := false })
    | none =>
        let pendingJobs :=
          findByCollectionId s1.disk.store collectionId (some .pending)
            (some initialBatchSize)
        if pendingJobs.length = 0 then
          .error ("No pending jobs found", { s1 with isProcessing := false })
        else
          let (d2, processed) := batchLoop gen s1.disk pendingJobs
          .ok (processed, { isProcessing := false, disk := d2 })

/-- `JobService.continueBatchProcessing(collectionId)` (README 376-416).
Identical to the initial batch except for the batch size and the zero-pending
case, which returns an empty list after clearing the flag (README 387-391). -/
def continueBatchProcessing (gen : Nat → Except String String)
    (fetchErr : Option String) (collectionId : Nat) (s : SvcState) :
    Except (String × SvcState) (List JobRec × SvcState) :=
  if s.isProcessing then
    .error ("Job processing already in progress", { s with isProcessing := false })
  else
    let s1 : SvcState := { s with isProcessing := true }
    match fetchErr with
    | some e => .error (e, { s1 with isProcessing := false })
    | none =>
        let pendingJobs :=
          findByCollectionId s1.disk.store collectionId (some .pending)
            (some continueBatchSize)
        if pendingJobs.length = 0 then
          .ok ([], { s1 with isProcessing := false })
        else
          let (d2, processed) := batchLoop gen s1.disk pendingJobs
          .ok (processed, { isProcessing := false, disk := d2 })

/-- The service state an invocation leaves behind, whether it returns
normally or throws. -/
def finalSvcState (r : Except (String × SvcState) (List JobRec × SvcState)) :
    SvcState :=
  match r with
  | .ok (_, s) => s
  | .error (_, s) => s

/-! ### Interleaved orchestrator model

The service methods are `async` and their `await` points let invocations
interleave. A batch in flight is an invocation that has acquired the
`isProcessing` flag and fetched its pending jobs but has not yet returned.
The synchronous prefix of an invocation (the flag check, the throw on
contention, the catch that clears the flag) executes atomically. -/

/-- A batch in flight: the jobs still to process and those already
processed by this invocation. -/
structure BatchRun where
  remaining : List JobRec
  processed : List JobRec
  deriving Repr, DecidableEq

/-- A snapshot of the whole process: service state plus in-flight batches. -/
structure Config where
  svc : SvcState
  runs : List BatchRun
  deriving Repr, DecidableEq

/-- The state change a single job processing step applies to storage
(the body of the batch loop, README 348-358). -/
def stepJobDisk (gen : Nat → Except String String) (d : DiskState)
    (job : JobRec) : DiskState :=
  match processJob gen d job with
  | .ok d2 => d2
  | .error (e, d2) =>
      { d2 with store :=
          (incrementRetryCount
            (updateStatusErrMsg d2.store job.id .error (some e)) job.id) }

/-- One interleaving step of the orchestrator for initial batches.

`startRejected` is the synchronous prefix of an invocation made while the
flag is set: the throw at README 334 lands in the catch at README 364-368,
which sets `isProcessing = false` before rethrowing, so the rejected
invocation clears the flag owned by the running batch. `startOk` is the
prefix of an accepted invocation through the fetch at README 340. `jobStep`
processes one job of an in-flight batch; `finish` is the normal return,
which clears the flag. -/
inductive OrchStep (gen : Nat → Except String String) (collectionId : Nat) :
    Config → Config → Prop
  | startRejected (c : Config) (h : c.svc.isProcessing = true) :
      OrchStep gen collectionId c
        { c with svc := { c.svc with isProcessing := false } }
  | startOk (c : Config) (h : c.svc.isProcessing = false)
      (pending : List JobRec)
      (hp : pending = findByCollectionId c.svc.disk.store collectionId
        (some .pending) (some initialBatchSize))
      (hne : pending ≠ []) :
      OrchStep gen collectionId c
        { svc := { isProcessing := true, disk := c.svc.disk },
          runs := c.runs ++ [{ remaining := pending, processed := [] }] }
  | jobStep (c : Config) (i : Nat) (run : BatchRun) (job : JobRec)
      (rest : List JobRec)
      (hi : c.runs.get? i = some run) (hr : run.remaining = job :: rest) :
      OrchStep gen collectionId c
        { svc := { c.svc with disk := stepJobDisk gen c.svc.disk job },
          runs := c.runs.set i
            { remaining := rest, processed := run.processed ++ [job] } }
  | finish (c : Config) (i : Nat) (run : BatchRun)
      (hi : c.runs.get? i = some run) (hr : run.remaining = []) :
      OrchStep gen collectionId c
        { svc := { c.svc with isProcessing := false },
          runs := c.runs.eraseIdx i }

/-! ### Regenerate and its route -/

/-- `JobService.regenerateJob(jobId)` (README 483-510): look the job up,
delete the previously produced image file if it exists (README 491-493),
reset the job to `pending` with image, metadata and error cleared
(README 496-500), then immediately re-process it (README 502). `regenFs` is
the file-system deletion step (README 491-493): remove the previously
produced image file if it exists. -/
def regenFs (d : DiskState) (job : JobRec) : List String :=
  match job.image_path with
  | some p => if p ∈ d.fs then d.fs.erase p else d.fs
  | none => d.fs

/-- See the doc comment of `regenerateJob`; this is its body after a
successful lookup. -/
def regenerateJobFound (gen : Nat → Except String String) (d : DiskState)
    (jobId : Nat) (job : JobRec) : Except (String × DiskState) DiskState :=
  processJob gen
    { store := updateStatusClear d.store jobId .pending, fs := regenFs d job }
    job

def regenerateJob (gen : Nat → Except String String) (d : DiskState)
    (jobId : Nat) : Except (String × DiskState) DiskState :=
  match getJob d.store jobId with
  | none => .error ("Job not found", d)
  | some job => regenerateJobFound gen d jobId job

/-- The outcome of an HTTP route: success, a 4xx client error, or a caught
exception answered as a 500. -/
inductive RouteOutcome
  | ok (d : DiskState)
  | clientError (code : Nat) (msg : String) (d : DiskState)
  | serverError (msg : String) (d : DiskState)
  deriving Repr, DecidableEq

/-- `POST /api/jobs/:id/regenerate` (routes jobs.js 142-175): 404 when the
job does not exist, 400 unless its status is `generated` or `error`,
otherwise delegate to the service. -/
def routeRegenerate (gen : Nat → Except String String) (d : DiskState)
    (jobId : Nat) : RouteOutcome :=
  match getJob d.store jobId with
  | none => .clientError 404 "Job not found" d
  | some job =>
      if job.status = .generated ∨ job.status = .error then
        match regenerateJob gen d jobId with
        | .ok d2 => .ok d2
        | .error (e, d2) => .serverError e d2
      else
        .clientError 400 "Job must be in generated or error status to regenerate" d

/-! ### Package assembly -/

/-- One row of the `collections` table (fields used by packaging). -/
structure CollectionRec where
  id : Nat
  name : String
  symbol : String
  description : String
  collection_number : Nat
  total_supply : Nat
  drop_supply : Nat
  drop_number : Nat
  deriving Repr, DecidableEq

/-- Classification of an archive entry by the append site that created it
in `createCollectionPackage`. -/
inductive EntryKind
  | image
  | metadata
  | manifest
  | readme
  deriving Repr, DecidableEq

/-- One entry of the produced ZIP archive. -/
structure ArchiveEntry where
  name : String
  kind : EntryKind
  deriving Repr, DecidableEq

/-- The entries appended to the archive by `createCollectionPackage`
(README 774-795): the collection manifest, then per approved job its image
(if the file exists, README 783-785) and its metadata (if the file exists,
README 788-790), then the generated README. `jobEntries` is the per-job
contribution. -/
def jobEntries (fs : List String) (job : JobRec) : List ArchiveEntry :=
  (match job.image_path with
   | some p =>
       if p ∈ fs then
         [{ name := toString job.edition_in_drop ++ ".png",
            kind := EntryKind.image }]
       else []
   | none => []) ++
  (match job.metadata_path with
   | some p =>
       if p ∈ fs then
         [{ name := toString job.edition_in_drop ++ ".json",
            kind := EntryKind.metadata }]
       else []
   | none => [])

/-- See the doc comment above `jobEntries`: the full entry list of the
archive. -/
def packageEntries (fs : List String) (approvedJobs : List JobRec) :
    List ArchiveEntry :=
  { name := "collection.json", kind := EntryKind.manifest } ::
    approvedJobs.flatMap (jobEntries fs) ++
    [{ name := "README.md", kind := EntryKind.readme }]

/-- `MetadataService.createCollectionPackage(collectionId)` (README 740-803)
at the level of archive membership: fail when the collection is unknown or
when it has no approved jobs, otherwise produce the archive entries. -/
def createCollectionPackage (coll : Option CollectionRec) (d : DiskState)
    (collectionId : Nat) : Except String (List ArchiveEntry) :=
  match coll with
  | none => .error "Collection not found"
  | some _ =>
      let approvedJobs :=
        findByCollectionId d.store collectionId (some .approved) none
      if approvedJobs.length = 0 then
        .error "No approved jobs found for collection"
      else
        .ok (packageEntries d.fs approvedJobs)

/-- `MetadataService.calculateRarity(editionNumber, totalSupply)`
(README 653-661), on the percentage `editionNumber / totalSupply * 100`
computed over the rationals. -/
def calculateRarity (editionNumber totalSupply : Nat) : String :=
  let percentage : ℚ := (editionNumber : ℚ) / (totalSupply : ℚ) * 100
  if percentage ≤ 1 then "Legendary"
  else if percentage ≤ 5 then "Epic"
  else if percentage ≤ 15 then "Rare"
  else if percentage ≤ 40 then "Uncommon"
  else "Common"

/-! ### Concrete instances used by witnesses and counterexamples -/

/-- The two-tier plan of the spec scenario. -/
def scenarioTiers : List RarityTier :=
  [{ type := "1/1", nftCount := 2, editionsPerImage := 1,
     artIdPrefix := "A", images := ["imgA", "imgB"] },
   { type := "common", nftCount := 4, editionsPerImage := 2,
     artIdPrefix := "C", images := ["imgC", "imgD"] }]

/-- The queue the spec scenario plan expands to. -/
def scenQueue : List JobSeed :=
  [{ sourceImage := "imgA", rarityTier := "1/1", artId := "A-1",
     editionNumber := 1, editionTotal := 1, globalIndex := 0 },
   { sourceImage := "imgB", rarityTier := "1/1", artId := "A-2",
     editionNumber := 1, editionTotal := 1, globalIndex := 1 },
   { sourceImage := "imgC", rarityTier := "common", artId := "C-1",
     editionNumber := 1, editionTotal := 2, globalIndex := 2 },
   { sourceImage := "imgC", rarityTier := "common", artId := "C-1",
     editionNumber := 2, editionTotal := 2, globalIndex := 3 },
   { sourceImage := "imgD", rarityTier := "common", artId := "C-2",
     editionNumber := 1, editionTotal := 2, globalIndex := 4 },
   { sourceImage := "imgD", rarityTier := "common", artId := "C-2",
     editionNumber := 2, editionTotal := 2, globalIndex := 5 }]

/-- The first seed of the scenario queue. -/
def seedA1 : JobSeed :=
  { sourceImage := "imgA", rarityTier := "1/1", artId := "A-1",
    editionNumber := 1, editionTotal := 1, globalIndex := 0 }

/-- A tier that needs 5 images but provides only 4. -/
def deficientTier : RarityTier :=
  { type := "special", nftCount := 5, editionsPerImage := 1,
    artIdPrefix := "S", images := ["i1", "i2", "i3", "i4"] }

/-- A generation oracle that always succeeds. -/
def genAlwaysOk : Nat → Except String String :=
  fun jobId => .ok (toString jobId ++ ".png")

/-- A generation oracle that fails on job 1 and succeeds elsewhere. -/
def genFailOn1 : Nat → Except String String :=
  fun jobId =>
    if jobId = 1 then .error "provider error" else .ok (toString jobId ++ ".png")

/-- A pending job of collection 1. -/
def pendingJob1 : JobRec :=
  { id := 1, collection_id := 1, edition_number := 1, edition_in_drop := 1,
    status := JobStatus.pending, image_path := none, metadata_path := none,
    error_message := none, retry_count := 0, ai_prompt := "a prompt" }

/-- A second pending job of collection 1. -/
def pendingJob2 : JobRec :=
  { pendingJob1 with id := 2, edition_number := 2, edition_in_drop := 2 }

/-- A job of collection 1 in `error` status with a produced image on disk. -/
def errorJob : JobRec :=
  { id := 1, collection_id := 1, edition_number := 1, edition_in_drop := 1,
    status := JobStatus.error, image_path := some "old.png",
    metadata_path := none, error_message := some "boom", retry_count := 2,
    ai_prompt := "a prompt" }

/-- Disk state for the regenerate counterexample. -/
def regenDisk : DiskState :=
  { store := [errorJob], fs := ["old.png"] }

/-- A generation oracle that writes `new.png`. -/
def genNew : Nat → Except String String :=
  fun _ => .ok "new.png"

/-- Service state with an empty store. -/
def emptySvc : SvcState :=
  { isProcessing := false, disk := { store := [], fs := [] } }

/-- Initial configuration of the interleaved model: one pending job,
no batch in flight. -/
def cfg0 : Config :=
  { svc := { isProcessing := false, disk := { store := [pendingJob1], fs := [] } },
    runs := [] }

/-- An approved job with both artifacts on disk. -/
def approvedJob1 : JobRec :=
  { id := 1, collection_id := 1, edition_number := 1, edition_in_drop := 1,
    status := JobStatus.approved, image_path := some "1.png",
    metadata_path := some "1.json", error_message := none, retry_count := 0,
    ai_prompt := "a prompt" }

/-- The disk state `regenDisk` evolves to when job 1 is regenerated with
the `genNew` oracle. -/
def regenResult : DiskState :=
  { store := [{ id := 1, collection_id := 1, edition_number := 1,
                edition_in_drop := 1, status := JobStatus.generated,
                image_path := some "new.png", metadata_path := none,
                error_message := none, retry_count := 2,
                ai_prompt := "a prompt" }],
    fs := ["new.png"] }

/-- Disk state with one approved job of collection 1, both artifacts on
disk. -/
def packDisk : DiskState :=
  { store := [{ id := 1, collection_id := 1, edition_number := 1,
                edition_in_drop := 1, status := JobStatus.approved,
                image_path := some "1.png", metadata_path := some "1.json",
                error_message := none, retry_count := 0,
                ai_prompt := "a prompt" }],
    fs := ["1.png", "1.json"] }

/-- An empty disk state. -/
def emptyDisk : DiskState :=
  { store := [], fs := [] }

/-- A collection row for witnesses. -/
def coll1 : CollectionRec :=
  { id := 1, name := "Test", symbol := "TST", description := "d",
    collection_number := 1, total_supply := 10, drop_supply := 10,
    drop_number := 1 }

/-! ### Theorems about the rarity-plan expander -/

/-- For `1 ≤ e`, the per-image allocations of a tier sum to `n`:
the key counting fact behind supply matching. -/
theorem sum_editionsForImage (e : Nat) (he : 1 ≤ e) :
    ∀ n, ((List.range (imagesNeeded n e)).map (fun i => editionsForImage n e i)).sum = n := by
  intro n
  induction n using Nat.strong_induction_on with
  | _ n ih =>
    rcases Nat.eq_zero_or_pos n with hn | hn
    · subst hn
      have h0 : imagesNeeded 0 e = 0 := by
        unfold imagesNeeded
        exact Nat.div_eq_of_lt (by omega)
      simp [h0]
    · rcases Nat.lt_or_ge e n with hlt | hle
      · have h2 : imagesNeeded n e = imagesNeeded (n - e) e + 1 := by
          unfold imagesNeeded
          have h3 : n + e - 1 = ((n - e) + e - 1) + e := by omega
          rw [h3, Nat.add_div_right _ (by omega)]
        rw [h2, List.range_succ_eq_map]
        have hrec := ih (n - e) (by omega)
        simp only [List.map_cons, List.map_map, List.sum_cons]
        have hmapeq :
            (List.range (imagesNeeded (n - e) e)).map
                ((fun i => editionsForImage n e i) ∘ Nat.succ) =
              (List.range (imagesNeeded (n - e) e)).map
                (fun i => editionsForImage (n - e) e i) := by
          apply List.map_congr_left
          intro i _
          show editionsForImage n e (i + 1) = editionsForImage (n - e) e i
          unfold editionsForImage
          have h4 : (i + 1) * e = i * e + e := by ring
          omega
        rw [hmapeq, hrec]
        unfold editionsForImage
        omega
      · have h1 : imagesNeeded n e = 1 := by
          unfold imagesNeeded
          have h3 : n + e - 1 = (n - 1) + e := by omega
          rw [h3, Nat.add_div_right _ (by omega), Nat.div_eq_of_lt (by omega)]
        rw [h1]
        simp only [List.range_succ_eq_map, List.range_zero, List.map_nil, List.map_cons,
          List.sum_cons, List.sum_nil]
        unfold editionsForImage
        omega

/-- The global indices of the seeds of one image are consecutive from the
counter value on entry. -/
theorem imageJobs_map_globalIndex (t : RarityTier) (i cur : Nat) :
    (imageJobs t i cur).map (fun s => s.globalIndex) =
      List.range' cur (editionsForImage t.nftCount t.editionsPerImage i) := by
  rw [List.range'_eq_map_range]
  unfold imageJobs
  rw [List.map_map]
  apply List.map_congr_left
  intro e _
  rfl

/-- The global indices of a tier fragment are consecutive from the counter
value on entry. -/
theorem tierJobsAux_map_globalIndex (t : RarityTier) :
    ∀ (l : List Nat) (cur : Nat),
      (tierJobsAux t l cur).map (fun s => s.globalIndex) =
        List.range' cur ((l.map (editionsForImage t.nftCount t.editionsPerImage)).sum) := by
  intro l
  induction l with
  | nil => intro cur; simp [tierJobsAux]
  | cons i rest ih =>
      intro cur
      simp only [tierJobsAux, List.map_append, List.map_cons, List.sum_cons]
      rw [imageJobs_map_globalIndex, ih, List.range'_append_1, Nat.add_comm]

/-- Characterization of a successful expansion: the queue exists and its
global indices are consecutive from the entry counter. -/
theorem createJobQueueAux_ok :
    ∀ (tiers : List RarityTier) (cur : Nat),
      (∀ t ∈ tiers, imagesNeeded t.nftCount t.editionsPerImage ≤ t.images.length) →
      ∃ q, createJobQueueAux tiers cur = .ok q ∧
        q.map (fun s => s.globalIndex) =
          List.range' cur ((tiers.map tierSeedCount).sum) := by
  intro tiers
  induction tiers with
  | nil => exact fun cur _ => ⟨[], rfl, by simp⟩
  | cons t rest ih =>
      intro cur h
      have ht := h t (List.mem_cons_self t rest)
      obtain ⟨q, hq, hmap⟩ :=
        ih (cur + tierSeedCount t) (fun u hu => h u (List.mem_cons_of_mem t hu))
      refine ⟨tierJobs t cur ++ q, ?_, ?_⟩
      · unfold createJobQueueAux
        rw [if_neg (by omega), hq]
      · rw [List.map_append, hmap]
        rw [show (tierJobs t cur).map (fun s => s.globalIndex) =
              List.range' cur (tierSeedCount t) from
            tierJobsAux_map_globalIndex t
              (List.range (imagesNeeded t.nftCount t.editionsPerImage)) cur]
        rw [List.range'_append_1, Nat.add_comm]
        simp

/-- C1: for every rarity-tier plan in which each tier has at least
`ceil(nftCount / editionsPerImage)` images and the tier `nftCount`s sum to
the declared total supply, `createJobQueue` produces exactly `totalSupply`
job-seed records whose `globalIndex` values are exactly
`0, 1, ..., totalSupply - 1`, assigned in increasing order across the whole
plan with no gaps or duplicates. -/
theorem createJobQueue_supply_and_indices (tiers : List RarityTier) (totalSupply : Nat)
    (himg : ∀ t ∈ tiers, imagesNeeded t.nftCount t.editionsPerImage ≤ t.images.length)
    (hepi : ∀ t ∈ tiers, 1 ≤ t.editionsPerImage)
    (hsum : (tiers.map (fun t => t.nftCount)).sum = totalSupply) :
    ∃ q, createJobQueue tiers totalSupply = .ok q ∧
      q.length = totalSupply ∧
      q.map (fun s => s.globalIndex) = List.range totalSupply := by
  obtain ⟨q, hq, hmap⟩ := createJobQueueAux_ok tiers 0 himg
  have hsc : (tiers.map tierSeedCount).sum = totalSupply := by
    rw [← hsum]
    congr 1
    apply List.map_congr_left
    intro t ht
    exact sum_editionsForImage t.editionsPerImage (hepi t ht) t.nftCount
  refine ⟨q, hq, ?_, ?_⟩
  · have hlen := congrArg List.length hmap
    simpa [hsc] using hlen
  · rw [hmap, hsc]
    exact (List.range_eq_range' totalSupply).symm

/-- Witness for C1 at the two-tier spec scenario (total supply 6). -/
theorem createJobQueue_supply_and_indices_witness :
    ∃ q, createJobQueue scenarioTiers 6 = .ok q ∧
      q.length = 6 ∧ q.map (fun s => s.globalIndex) = List.range 6 :=
  createJobQueue_supply_and_indices scenarioTiers 6 (by decide) (by decide)
    (by decide)

/-- Field facts for a seed of one image chunk. -/
theorem mem_imageJobs {t : RarityTier} {i cur : Nat} {s : JobSeed}
    (hs : s ∈ imageJobs t i cur) :
    1 ≤ s.editionNumber ∧ s.editionNumber ≤ s.editionTotal ∧
      s.editionTotal = editionsForImage t.nftCount t.editionsPerImage i ∧
      s.sourceImage = t.images.getD i "" := by
  unfold imageJobs at hs
  obtain ⟨e, he, rfl⟩ := List.mem_map.mp hs
  have he2 := List.mem_range.mp he
  refine ⟨?_, ?_, rfl, rfl⟩
  · show 1 ≤ e + 1
    omega
  · show e + 1 ≤ editionsForImage t.nftCount t.editionsPerImage i
    omega

/-- A seed of a tier fragment comes from one of its image indices. -/
theorem mem_tierJobsAux {t : RarityTier} {s : JobSeed} :
    ∀ {l : List Nat} {cur : Nat}, s ∈ tierJobsAux t l cur →
      ∃ i ∈ l, ∃ cur2, s ∈ imageJobs t i cur2 := by
  intro l
  induction l with
  | nil => intro cur hs; simp [tierJobsAux] at hs
  | cons i rest ih =>
      intro cur hs
      simp only [tierJobsAux, List.mem_append] at hs
      rcases hs with hs | hs
      · exact ⟨i, List.mem_cons_self i rest, cur, hs⟩
      · obtain ⟨j, hj, c, hc⟩ := ih hs
        exact ⟨j, List.mem_cons_of_mem i hj, c, hc⟩

/-- A seed of a successfully expanded queue comes from one of the plan tiers
and one of its in-range image indices. -/
theorem mem_createJobQueueAux {s : JobSeed} :
    ∀ {tiers : List RarityTier} {cur : Nat} {q : List JobSeed},
      createJobQueueAux tiers cur = .ok q → s ∈ q →
      ∃ t ∈ tiers, ∃ i, i < imagesNeeded t.nftCount t.editionsPerImage ∧
        ∃ cur2, s ∈ imageJobs t i cur2 := by
  intro tiers
  induction tiers with
  | nil =>
      intro cur q hq hs
      unfold createJobQueueAux at hq
      cases hq
      simp at hs
  | cons t rest ih =>
      intro cur q hq hs
      unfold createJobQueueAux at hq
      by_cases hc : t.images.length < imagesNeeded t.nftCount t.editionsPerImage
      · rw [if_pos hc] at hq; cases hq
      · rw [if_neg hc] at hq
        cases hrec : createJobQueueAux rest (cur + tierSeedCount t) with
        | error e => rw [hrec] at hq; cases hq
        | ok q2 =>
            rw [hrec] at hq
            cases hq
            rcases List.mem_append.mp hs with hmem | hmem
            · obtain ⟨i, hi, c, hc2⟩ := mem_tierJobsAux hmem
              exact ⟨t, List.mem_cons_self t rest, i, List.mem_range.mp hi, c, hc2⟩
            · obtain ⟨u, hu, i, hi, c, hc2⟩ := ih hrec hmem
              exact ⟨u, List.mem_cons_of_mem t hu, i, hi, c, hc2⟩

/-- C2: every job-seed produced by the expander has `editionNumber` between
1 and the edition count allocated to its source image, which is
`min(editionsPerImage, nftCount - imageIndex * editionsPerImage)` and at
most `editionsPerImage`; in particular a tier with `nftCount = 7` and
`editionsPerImage = 3` allocates 3, 3 and 1 editions to its three images. -/
theorem jobSeed_edition_fields :
    (∀ (tiers : List RarityTier) (ts : Nat) (q : List JobSeed) (s : JobSeed),
        createJobQueue tiers ts = .ok q → s ∈ q →
          1 ≤ s.editionNumber ∧ s.editionNumber ≤ s.editionTotal ∧
          ∃ t ∈ tiers, ∃ i, i < imagesNeeded t.nftCount t.editionsPerImage ∧
            s.editionTotal = editionsForImage t.nftCount t.editionsPerImage i ∧
            s.editionTotal ≤ t.editionsPerImage ∧
            s.sourceImage = t.images.getD i "") ∧
      (List.range (imagesNeeded 7 3)).map (editionsForImage 7 3) = [3, 3, 1] := by
  constructor
  · intro tiers ts q s hq hs
    obtain ⟨t, htm, i, hi, cur2, hmem⟩ := mem_createJobQueueAux hq hs
    obtain ⟨h1, h2, h3, h4⟩ := mem_imageJobs hmem
    refine ⟨h1, h2, t, htm, i, hi, h3, ?_, h4⟩
    rw [h3]
    exact Nat.min_le_left _ _
  · decide

/-- Witness for C2: the first seed of the spec scenario queue. -/
theorem jobSeed_edition_fields_witness :
    (1 ≤ seedA1.editionNumber ∧ seedA1.editionNumber ≤ seedA1.editionTotal ∧
      ∃ t ∈ scenarioTiers, ∃ i, i < imagesNeeded t.nftCount t.editionsPerImage ∧
        seedA1.editionTotal = editionsForImage t.nftCount t.editionsPerImage i ∧
        seedA1.editionTotal ≤ t.editionsPerImage ∧
        seedA1.sourceImage = t.images.getD i "") ∧
      (List.range (imagesNeeded 7 3)).map (editionsForImage 7 3) = [3, 3, 1] :=
  ⟨jobSeed_edition_fields.1 scenarioTiers 6 scenQueue seedA1 (by rfl) (by decide),
   jobSeed_edition_fields.2⟩

/-- A deficient tier (all earlier tiers adequate) makes the expansion throw
its capacity error. -/
theorem createJobQueueAux_deficient :
    ∀ (pre : List RarityTier) (t : RarityTier) (post : List RarityTier) (cur : Nat),
      (∀ u ∈ pre, imagesNeeded u.nftCount u.editionsPerImage ≤ u.images.length) →
      t.images.length < imagesNeeded t.nftCount t.editionsPerImage →
      createJobQueueAux (pre ++ t :: post) cur = .error (tierErrorMsg t) := by
  intro pre
  induction pre with
  | nil =>
      intro t post cur _ ht
      show createJobQueueAux (t :: post) cur = _
      unfold createJobQueueAux
      rw [if_pos ht]
  | cons u rest ih =>
      intro t post cur h ht
      have hu := h u (List.mem_cons_self u rest)
      show createJobQueueAux (u :: (rest ++ t :: post)) cur = _
      unfold createJobQueueAux
      rw [if_neg (by omega)]
      rw [ih t post _ (fun v hv => h v (List.mem_cons_of_mem u hv)) ht]

/-- C7: a plan containing a tier with fewer images than
`ceil(nftCount / editionsPerImage)` (all earlier tiers being adequate) makes
the expansion fail immediately with the error naming that tier, the images
needed and the images provided; no job-seed is returned, and the
`/api/generate` pipeline fails before creating any archive entry. -/
theorem deficient_tier_fails (pre post : List RarityTier) (t : RarityTier) (ts : Nat)
    (hpre : ∀ u ∈ pre, imagesNeeded u.nftCount u.editionsPerImage ≤ u.images.length)
    (ht : t.images.length < imagesNeeded t.nftCount t.editionsPerImage) :
    createJobQueue (pre ++ t :: post) ts = .error (tierErrorMsg t) ∧
      (∀ q, createJobQueue (pre ++ t :: post) ts ≠ .ok q) ∧
      generateEndpoint (pre ++ t :: post) ts = .error (tierErrorMsg t) := by
  have h : createJobQueue (pre ++ t :: post) ts = .error (tierErrorMsg t) :=
    createJobQueueAux_deficient pre t post 0 hpre ht
  refine ⟨h, ?_, ?_⟩
  · intro q hq
    rw [h] at hq
    cases hq
  · unfold generateEndpoint
    rw [h]

/-- Witness for C7: a tier requesting 5 images with only 4 provided. -/
theorem deficient_tier_fails_witness :
    createJobQueue ([] ++ deficientTier :: []) 5 = .error (tierErrorMsg deficientTier) ∧
      (∀ q, createJobQueue ([] ++ deficientTier :: []) 5 ≠ .ok q) ∧
      generateEndpoint ([] ++ deficientTier :: []) 5 = .error (tierErrorMsg deficientTier) :=
  deficient_tier_fails [] [] deficientTier 5 (by decide) (by decide)

/-! ### Digit counting and padding -/

/-- One unfolding of `Nat.toDigitsCore` at positive fuel. -/
theorem toDigitsCore_succ (f n : Nat) (ds : List Char) :
    Nat.toDigitsCore 10 (f + 1) n ds =
      if n / 10 = 0 then Nat.digitChar (n % 10) :: ds
      else Nat.toDigitsCore 10 f (n / 10) (Nat.digitChar (n % 10) :: ds) := rfl

/-- With enough fuel, `Nat.toDigitsCore` prepends exactly `dcount n`
characters to its accumulator. -/
theorem toDigitsCore_length :
    ∀ (fuel n : Nat) (ds : List Char), n < fuel →
      (Nat.toDigitsCore 10 fuel n ds).length = dcount n + ds.length := by
  intro fuel
  induction fuel with
  | zero => intro n ds h; omega
  | succ f ih =>
      intro n ds h
      rw [toDigitsCore_succ]
      by_cases h10 : n / 10 = 0
      · rw [if_pos h10]
        have hn : n < 10 := by
          by_contra hc
          have := Nat.div_le_div_right (c := 10) (Nat.le_of_not_lt hc)
          simp at this
          omega
        have hd : dcount n = 1 := by
          unfold dcount
          rw [if_pos hn]
        rw [List.length_cons, hd]
        omega
      · rw [if_neg h10]
        have hge : 10 ≤ n := by
          by_contra hc
          exact h10 (Nat.div_eq_of_lt (by omega))
        have hdlt : n / 10 < n := Nat.div_lt_self (by omega) (by omega)
        have hfuel : n / 10 < f := by omega
        rw [ih (n / 10) _ hfuel]
        have hd : dcount n = dcount (n / 10) + 1 := by
          conv_lhs => unfold dcount
          rw [if_neg (by omega)]
        rw [List.length_cons, hd]
        omega

/-- `digitCount` agrees with the reference digit-count function. -/
theorem digitCount_eq_dcount (n : Nat) : digitCount n = dcount n := by
  have h := toDigitsCore_length (n + 1) n [] (by omega)
  simpa [digitCount, Nat.toDigits] using h

/-- The decimal rendering of `n` has `digitCount n` characters. -/
theorem repr_length_eq_digitCount (n : Nat) : (Nat.repr n).length = digitCount n := rfl

/-- Numbers below `10 ^ (k + 1)` have at most `k + 1` digits. -/
theorem dcount_le (k : Nat) : ∀ n, n < 10 ^ (k + 1) → dcount n ≤ k + 1 := by
  induction k with
  | zero =>
      intro n h
      unfold dcount
      rw [if_pos (by simpa using h)]
  | succ k ih =>
      intro n h
      by_cases h10 : n < 10
      · unfold dcount
        rw [if_pos h10]
        omega
      · unfold dcount
        rw [if_neg h10]
        have hdiv : n / 10 < 10 ^ (k + 1) := by
          rw [Nat.div_lt_iff_lt_mul (by omega)]
          calc n < 10 ^ (k + 2) := h
            _ = 10 ^ (k + 1) * 10 := by ring
        have := ih (n / 10) hdiv
        omega

/-- Numbers at least `10 ^ k` have more than `k` digits. -/
theorem le_dcount (k : Nat) : ∀ n, 10 ^ k ≤ n → k + 1 ≤ dcount n := by
  induction k with
  | zero =>
      intro n _
      unfold dcount
      split <;> omega
  | succ k ih =>
      intro n h
      have hpow : (10 : Nat) ^ 1 ≤ 10 ^ (k + 1) :=
        Nat.pow_le_pow_right (by omega) (by omega)
      have h10 : 10 ≤ n := by
        have := le_trans hpow h
        simpa using this
      unfold dcount
      rw [if_neg (by omega)]
      have hdiv : 10 ^ k ≤ n / 10 := by
        rw [Nat.le_div_iff_mul_le (by omega)]
        calc 10 ^ k * 10 = 10 ^ (k + 1) := by ring
          _ ≤ n := h
      have := ih (n / 10) hdiv
      omega

/-- The length of a padded string is the maximum of the target width and the
original length. -/
theorem jsPadStart_length (width : Nat) (s : String) :
    (jsPadStart width s).length = max width s.length := by
  show (List.replicate (width - s.length) '0' ++ s.data).length = _
  rw [List.length_append, List.length_replicate]
  have hd : s.data.length = s.length := rfl
  rcases Nat.le_total width s.length with h | h
  · rw [Nat.max_eq_right h]
    omega
  · rw [Nat.max_eq_left h]
    omega

/-- C9 counterexample: the claim says every index of a collection is padded
to the fixed width `max(5, digits needed for totalSupply)`. At
`totalSupply = 100001` this width would be 6, but the code pads index 0 to
width 5. -/
theorem padding_width_counterexample :
    ¬ (∀ i, i < 100001 → (paddedIndex i).length = max 5 (digitCount 100001)) := by
  intro h
  have h0 := h 0 (by omega)
  have hp : (paddedIndex 0).length = 5 := rfl
  have hd : digitCount 100001 = 6 := by
    rw [digitCount_eq_dcount]
    have h1 := le_dcount 5 100001 (by norm_num)
    have h2 := dcount_le 5 100001 (by norm_num)
    omega
  rw [hp, hd] at h0
  simp at h0

/-- C9 amended: `String(i).padStart(5, "0")` gives index `i` the width
`max 5 (digitCount i)` — a per-item quantity, not a function of
`totalSupply` — and the width is uniformly 5 precisely on indices with at
most five digits, so for every collection with `totalSupply ≤ 100000`. -/
theorem paddedIndex_length (i : Nat) :
    (paddedIndex i).length = max 5 (digitCount i) ∧
      (i < 100000 → (paddedIndex i).length = 5) := by
  have hlen : (paddedIndex i).length = max 5 (digitCount i) := by
    unfold paddedIndex
    rw [jsPadStart_length, repr_length_eq_digitCount]
  refine ⟨hlen, fun h => ?_⟩
  have h1 : dcount i ≤ 5 := dcount_le 4 i (lt_of_lt_of_le h (by norm_num))
  rw [hlen, digitCount_eq_dcount]
  exact Nat.max_eq_left h1

/-- Witness for the amended C9 at index 3. -/
theorem paddedIndex_length_witness :
    (paddedIndex 3).length = max 5 (digitCount 3) ∧ (paddedIndex 3).length = 5 :=
  ⟨(paddedIndex_length 3).1, (paddedIndex_length 3).2 (by omega)⟩

/-! ### Orchestrator theorems -/

/-- C10: after any invocation of either batch entry point terminates —
normally or with an error (lock contention, no pending jobs, storage
failure while fetching) — the `isProcessing` flag is `false`: the
single-flight lock is never left held by a completed or failed invocation. -/
theorem isProcessing_false_after_batch (gen : Nat → Except String String)
    (fetchErr : Option String) (collectionId : Nat) (s : SvcState) :
    (finalSvcState (processInitialBatch gen fetchErr collectionId s)).isProcessing = false ∧
      (finalSvcState (continueBatchProcessing gen fetchErr collectionId s)).isProcessing = false := by
  constructor
  · unfold processInitialBatch
    by_cases hb : s.isProcessing = true
    · simp [hb, finalSvcState]
    · simp only [hb, if_false]
      cases fetchErr with
      | some e => simp [finalSvcState]
      | none =>
          by_cases hp : (findByCollectionId s.disk.store collectionId
              (some .pending) (some initialBatchSize)).length = 0
          · simp [hp, finalSvcState]
          · rcases hbl : batchLoop gen s.disk (findByCollectionId s.disk.store
                collectionId (some .pending) (some initialBatchSize)) with ⟨d2, p⟩
            simp [hp, hbl, finalSvcState]
  · unfold continueBatchProcessing
    by_cases hb : s.isProcessing = true
    · simp [hb, finalSvcState]
    · simp only [hb, if_false]
      cases fetchErr with
      | some e => simp [finalSvcState]
      | none =>
          by_cases hp : (findByCollectionId s.disk.store collectionId
              (some .pending) (some continueBatchSize)).length = 0
          · simp [hp, finalSvcState]
          · rcases hbl : batchLoop gen s.disk (findByCollectionId s.disk.store
                collectionId (some .pending) (some continueBatchSize)) with ⟨d2, p⟩
            simp [hp, hbl, finalSvcState]

/-- C5 counterexample: on a collection with zero pending jobs, the initial
entry point does not return an empty nothing-to-do result — it throws the
No-pending-jobs error. -/
theorem zero_pending_initial_counterexample :
    processInitialBatch genAlwaysOk none 1 emptySvc =
      .error ("No pending jobs found", emptySvc) := rfl

/-- C5 amended: with zero pending jobs, `continueBatchProcessing` returns an
empty nothing-to-do result, while `processInitialBatch` fails with the
No-pending-jobs error. -/
theorem zero_pending_behavior (gen : Nat → Except String String)
    (collectionId : Nat) (s : SvcState)
    (hb : s.isProcessing = false)
    (hp1 : findByCollectionId s.disk.store collectionId (some .pending)
      (some initialBatchSize) = [])
    (hp2 : findByCollectionId s.disk.store collectionId (some .pending)
      (some continueBatchSize) = []) :
    continueBatchProcessing gen none collectionId s =
        .ok ([], { s with isProcessing := false }) ∧
      processInitialBatch gen none collectionId s =
        .error ("No pending jobs found", { s with isProcessing := false }) := by
  constructor
  · unfold continueBatchProcessing
    simp [hb, hp2]
  · unfold processInitialBatch
    simp [hb, hp1]

/-- Witness for the amended C5 on the empty store. -/
theorem zero_pending_behavior_witness :
    continueBatchProcessing genAlwaysOk none 1 emptySvc =
        .ok ([], { emptySvc with isProcessing := false }) ∧
      processInitialBatch genAlwaysOk none 1 emptySvc =
        .error ("No pending jobs found", { emptySvc with isProcessing := false }) :=
  zero_pending_behavior genAlwaysOk 1 emptySvc rfl rfl rfl

/-! ### Batch-loop theorems -/

/-- Updating one primary key leaves lookups of other keys unchanged. -/
theorem getJob_updateJob_ne (id id2 : Nat) (f : JobRec → JobRec)
    (hf : ∀ r, (f r).id = r.id) (hne : id2 ≠ id) :
    ∀ store : Store, getJob (updateJob store id f) id2 = getJob store id2 := by
  intro store
  induction store with
  | nil => rfl
  | cons r rest ih =>
      simp only [updateJob, List.map_cons, getJob, List.find?_cons] at ih ⊢
      by_cases hr : r.id = id
      · rw [if_pos hr]
        have h1 : ((f r).id == id2) = false := by
          rw [hf r, hr]
          exact beq_eq_false_iff_ne.mpr (Ne.symm hne)
        have h2 : (r.id == id2) = false := by
          rw [hr]
          exact beq_eq_false_iff_ne.mpr (Ne.symm hne)
        rw [h1, h2]
        exact ih
      · rw [if_neg hr]
        cases hb : (r.id == id2) with
        | false => exact ih
        | true => rfl

/-- Updating a present primary key applies the update to its row. -/
theorem getJob_updateJob_eq (id : Nat) (f : JobRec → JobRec)
    (hf : ∀ r, (f r).id = r.id) :
    ∀ (store : Store) (r : JobRec), getJob store id = some r →
      getJob (updateJob store id f) id = some (f r) := by
  intro store
  induction store with
  | nil => intro r h; cases h
  | cons a rest ih =>
      intro r h
      simp only [getJob, List.find?_cons] at h ⊢
      simp only [updateJob, List.map_cons]
      by_cases ha : a.id = id
      · have hb : (a.id == id) = true := by simp [ha]
        rw [hb] at h
        cases h
        rw [if_pos ha]
        simp only [List.find?_cons]
        have hb2 : ((f a).id == id) = true := by simp [hf a, ha]
        rw [hb2]
      · have hb : (a.id == id) = false := by simp [ha]
        rw [hb] at h
        rw [if_neg ha]
        simp only [List.find?_cons]
        rw [hb]
        exact ih r h

/-- One batch-loop iteration in terms of the net per-job store effect. -/
theorem batchLoop_cons (gen : Nat → Except String String) (d : DiskState)
    (j : JobRec) (rest : List JobRec) :
    batchLoop gen d (j :: rest) =
      ((batchLoop gen (stepJobDisk gen d j) rest).1,
        if genSucceeds gen j then
          j :: (batchLoop gen (stepJobDisk gen d j) rest).2
        else (batchLoop gen (stepJobDisk gen d j) rest).2) := by
  cases hgen : gen j.id with
  | ok p =>
      simp only [batchLoop, processJob, stepJobDisk, genSucceeds, hgen, if_true]
  | error e =>
      simp only [batchLoop, processJob, stepJobDisk, genSucceeds, hgen]
      simp

/-- `updateStatus` leaves other rows unchanged. -/
theorem getJob_updateStatus_ne (store : Store) (id id2 : Nat) (st : JobStatus)
    (hne : id2 ≠ id) :
    getJob (updateStatus store id st) id2 = getJob store id2 :=
  getJob_updateJob_ne id id2 (fun r => { r with status := st }) (fun _ => rfl)
    hne store

/-- `updateStatusImage` leaves other rows unchanged. -/
theorem getJob_updateStatusImage_ne (store : Store) (id id2 : Nat)
    (st : JobStatus) (p : Option String) (hne : id2 ≠ id) :
    getJob (updateStatusImage store id st p) id2 = getJob store id2 :=
  getJob_updateJob_ne id id2 (fun r => { r with status := st, image_path := p })
    (fun _ => rfl) hne store

/-- `updateStatusErrMsg` leaves other rows unchanged. -/
theorem getJob_updateStatusErrMsg_ne (store : Store) (id id2 : Nat)
    (st : JobStatus) (e : Option String) (hne : id2 ≠ id) :
    getJob (updateStatusErrMsg store id st e) id2 = getJob store id2 :=
  getJob_updateJob_ne id id2
    (fun r => { r with status := st, error_message := e }) (fun _ => rfl)
    hne store

/-- `incrementRetryCount` leaves other rows unchanged. -/
theorem getJob_incrementRetryCount_ne (store : Store) (id id2 : Nat)
    (hne : id2 ≠ id) :
    getJob (incrementRetryCount store id) id2 = getJob store id2 :=
  getJob_updateJob_ne id id2 (fun r => { r with retry_count := r.retry_count + 1 })
    (fun _ => rfl) hne store

/-- `updateStatus` on a present key updates its row. -/
theorem getJob_updateStatus_eq (store : Store) (id : Nat) (st : JobStatus)
    (r : JobRec) (hr : getJob store id = some r) :
    getJob (updateStatus store id st) id = some { r with status := st } :=
  getJob_updateJob_eq id (fun x => { x with status := st }) (fun _ => rfl)
    store r hr

/-- `updateStatusImage` on a present key updates its row. -/
theorem getJob_updateStatusImage_eq (store : Store) (id : Nat)
    (st : JobStatus) (p : Option String) (r : JobRec)
    (hr : getJob store id = some r) :
    getJob (updateStatusImage store id st p) id =
      some { r with status := st, image_path := p } :=
  getJob_updateJob_eq id (fun x => { x with status := st, image_path := p })
    (fun _ => rfl) store r hr

/-- `updateStatusErrMsg` on a present key updates its row. -/
theorem getJob_updateStatusErrMsg_eq (store : Store) (id : Nat)
    (st : JobStatus) (e : Option String) (r : JobRec)
    (hr : getJob store id = some r) :
    getJob (updateStatusErrMsg store id st e) id =
      some { r with status := st, error_message := e } :=
  getJob_updateJob_eq id (fun x => { x with status := st, error_message := e })
    (fun _ => rfl) store r hr

/-- `incrementRetryCount` on a present key updates its row. -/
theorem getJob_incrementRetryCount_eq (store : Store) (id : Nat) (r : JobRec)
    (hr : getJob store id = some r) :
    getJob (incrementRetryCount store id) id =
      some { r with retry_count := r.retry_count + 1 } :=
  getJob_updateJob_eq id (fun x => { x with retry_count := x.retry_count + 1 })
    (fun _ => rfl) store r hr

/-- `updateStatusClear` on a present key updates its row. -/
theorem getJob_updateStatusClear_eq (store : Store) (id : Nat)
    (st : JobStatus) (r : JobRec) (hr : getJob store id = some r) :
    getJob (updateStatusClear store id st) id =
      some { r with status := st, image_path := none, metadata_path := none,
                    error_message := none } :=
  getJob_updateJob_eq id
    (fun x => { x with status := st, image_path := none, metadata_path := none,
                       error_message := none }) (fun _ => rfl) store r hr

/-- Processing one job does not change the rows of other jobs. -/
theorem getJob_stepJobDisk_ne (gen : Nat → Except String String)
    (d : DiskState) (j : JobRec) (id2 : Nat) (hne : id2 ≠ j.id) :
    getJob (stepJobDisk gen d j).store id2 = getJob d.store id2 := by
  cases hgen : gen j.id with
  | ok p =>
      simp only [stepJobDisk, processJob, hgen]
      rw [getJob_updateStatusImage_ne _ _ _ _ _ hne,
        getJob_updateStatus_ne _ _ _ _ hne]
  | error e =>
      simp only [stepJobDisk, processJob, hgen]
      rw [getJob_incrementRetryCount_ne _ _ _ hne,
        getJob_updateStatusErrMsg_ne _ _ _ _ _ hne,
        getJob_updateStatus_ne _ _ _ _ hne]

/-- Processing one job applies exactly the per-job outcome to its row. -/
theorem getJob_stepJobDisk_eq (gen : Nat → Except String String)
    (d : DiskState) (j : JobRec) (r : JobRec)
    (hr : getJob d.store j.id = some r) :
    getJob (stepJobDisk gen d j).store j.id = some (applyOutcome gen j r) := by
  cases hgen : gen j.id with
  | ok p =>
      simp only [stepJobDisk, processJob, hgen, applyOutcome]
      have h1 := getJob_updateStatus_eq d.store j.id .generating r hr
      have h2 := getJob_updateStatusImage_eq _ j.id .generated (some p) _ h1
      exact h2
  | error e =>
      simp only [stepJobDisk, processJob, hgen, applyOutcome]
      have h1 := getJob_updateStatus_eq d.store j.id .generating r hr
      have h2 := getJob_updateStatusErrMsg_eq _ j.id .error (some e) _ h1
      have h3 := getJob_incrementRetryCount_eq _ j.id _ h2
      exact h3

/-- The batch loop does not change the rows of jobs outside the batch. -/
theorem getJob_batchLoop_ne (gen : Nat → Except String String) :
    ∀ (jobs : List JobRec) (d : DiskState) (id2 : Nat),
      id2 ∉ jobs.map (fun j => j.id) →
      getJob (batchLoop gen d jobs).1.store id2 = getJob d.store id2 := by
  intro jobs
  induction jobs with
  | nil => intro d id2 _; rfl
  | cons j rest ih =>
      intro d id2 h
      simp only [List.map_cons, List.mem_cons, not_or] at h
      obtain ⟨h1, h2⟩ := h
      rw [batchLoop_cons]
      show getJob (batchLoop gen (stepJobDisk gen d j) rest).1.store id2 = _
      rw [ih (stepJobDisk gen d j) id2 h2]
      exact getJob_stepJobDisk_ne gen d j id2 h1

/-- C4: during batch processing, a failure on one job does not abort the
batch: every fetched job is attempted, a failing job ends `error` with the
provider message stored and its retry count incremented by exactly one, a
succeeding job ends `generated` with its image path stored, and the loop
returns exactly the successful jobs. -/
theorem batchLoop_attempts_every_job (gen : Nat → Except String String) :
    ∀ (jobs : List JobRec) (d : DiskState),
      (jobs.map (fun j => j.id)).Nodup →
      (∀ j ∈ jobs, ∀ r, getJob d.store j.id = some r →
          getJob (batchLoop gen d jobs).1.store j.id = some (applyOutcome gen j r)) ∧
        (batchLoop gen d jobs).2 = jobs.filter (genSucceeds gen) := by
  intro jobs
  induction jobs with
  | nil =>
      intro d _
      exact ⟨fun j hj => absurd hj (List.not_mem_nil j), by simp [batchLoop]⟩
  | cons j rest ih =>
      intro d hnd
      simp only [List.map_cons, List.nodup_cons] at hnd
      obtain ⟨hj, hrest⟩ := hnd
      obtain ⟨ih1, ih2⟩ := ih (stepJobDisk gen d j) hrest
      constructor
      · intro j2 hj2 r hr
        rw [batchLoop_cons]
        show getJob (batchLoop gen (stepJobDisk gen d j) rest).1.store j2.id = _
        rcases List.mem_cons.mp hj2 with heq | hj2
        · subst heq
          rw [getJob_batchLoop_ne gen rest (stepJobDisk gen d j2) j2.id hj]
          exact getJob_stepJobDisk_eq gen d j2 r hr
        · have hne : j2.id ≠ j.id := by
            intro hc
            exact hj (hc ▸ List.mem_map_of_mem (fun x => x.id) hj2)
          apply ih1 j2 hj2 r
          rw [getJob_stepJobDisk_ne gen d j j2.id hne]
          exact hr
      · rw [batchLoop_cons]
        show (if genSucceeds gen j then
            j :: (batchLoop gen (stepJobDisk gen d j) rest).2
          else (batchLoop gen (stepJobDisk gen d j) rest).2) = _
        rw [List.filter_cons]
        cases hgen : genSucceeds gen j with
        | true => simp [ih2]
        | false => simp [ih2]

/-- Witness for C4: two pending jobs where generation fails on the first and
succeeds on the second. -/
theorem batchLoop_attempts_every_job_witness :
    (∀ j ∈ twoJobDisk.store, ∀ r, getJob twoJobDisk.store j.id = some r →
        getJob (batchLoop genFailOn1 twoJobDisk twoJobDisk.store).1.store j.id =
          some (applyOutcome genFailOn1 j r)) ∧
      (batchLoop genFailOn1 twoJobDisk twoJobDisk.store).2 =
        twoJobDisk.store.filter (genSucceeds genFailOn1) :=
  batchLoop_attempts_every_job genFailOn1 twoJobDisk.store twoJobDisk (by decide)

/-! ### Single-flight theorems -/

/-- C3 (code bug): an interleaved trace in which a batch is started, a
second start attempt is rejected — but its catch block resets the
`isProcessing` flag — and a third start is then accepted while the first
batch is still in flight, reaching a configuration with two batches in
flight. -/
theorem two_batches_in_flight :
    ∃ c : Config, Relation.ReflTransGen (OrchStep genAlwaysOk 1) cfg0 c ∧
      c.runs.length = 2 := by
  refine ⟨_, Relation.ReflTransGen.head
    (OrchStep.startOk cfg0 rfl [pendingJob1] rfl (by simp))
    (Relation.ReflTransGen.head
      (OrchStep.startRejected _ rfl)
      (Relation.ReflTransGen.single
        (OrchStep.startOk _ rfl [pendingJob1] rfl (by simp)))), ?_⟩
  rfl

/-! ### Regenerate theorems -/

/-- C6 counterexample: regenerating a job from `error` status with a
succeeding generator leaves the job `generated` with a fresh image — not
`pending` — because `regenerateJob` re-processes the job immediately after
resetting it. -/
theorem regenerate_not_pending_counterexample :
    regenerateJob genNew regenDisk 1 = .ok regenResult ∧
      (getJob regenResult.store 1).map (fun r => r.status) =
        some JobStatus.generated ∧
      some JobStatus.generated ≠ some JobStatus.pending := by
  refine ⟨rfl, rfl, by decide⟩

/-- C6 amended: regenerate first resets the job to `pending` with image,
metadata and error all cleared and deletes the prior produced image
artifact — uniformly whether the job started from `generated` or from
`error` — but then immediately re-processes the job: on generation success
the operation completes with the job `generated` and a fresh image path, on
generation failure it propagates the error with the job left `generating`;
the job does not remain `pending`. -/
theorem regenerate_resets_then_reprocesses (gen : Nat → Except String String)
    (d : DiskState) (jobId : Nat) (job : JobRec)
    (hfind : getJob d.store jobId = some job)
    (hnd : d.fs.Nodup)
    (hst : job.status = .generated ∨ job.status = .error) :
    getJob (updateStatusClear d.store jobId .pending) jobId =
        some { job with status := .pending, image_path := none,
                        metadata_path := none, error_message := none } ∧
      (∀ p, job.image_path = some p → p ∉ regenFs d job) ∧
      (match gen job.id with
       | .ok p => ∃ d2, regenerateJob gen d jobId = .ok d2 ∧
           getJob d2.store jobId =
             some { job with status := .generated, image_path := some p,
                             metadata_path := none, error_message := none } ∧
           p ∈ d2.fs
       | .error e => ∃ d2, regenerateJob gen d jobId = .error (e, d2) ∧
           getJob d2.store jobId =
             some { job with status := .generating, image_path := none,
                             metadata_path := none,
                             error_message := none }) := by
  have hid : job.id = jobId := by
    have h := List.find?_some hfind
    simpa using h
  subst hid
  have hclear := getJob_updateStatusClear_eq d.store job.id .pending job hfind
  refine ⟨hclear, ?_, ?_⟩
  · intro p hp
    unfold regenFs
    rw [hp]
    show p ∉ if p ∈ d.fs then d.fs.erase p else d.fs
    by_cases hmem : p ∈ d.fs
    · rw [if_pos hmem]
      intro hin
      have := (List.Nodup.mem_erase_iff hnd).mp hin
      exact this.1 rfl
    · rw [if_neg hmem]
      exact hmem
  · have hregen : regenerateJob gen d job.id = regenerateJobFound gen d job.id job := by
      unfold regenerateJob
      rw [hfind]
    cases hgen : gen job.id with
    | ok p =>
        refine ⟨{ store := (updateStatusImage
                    (updateStatus (updateStatusClear d.store job.id .pending)
                      job.id .generating) job.id .generated (some p)),
                  fs := p :: regenFs d job }, ?_, ?_, ?_⟩
        · rw [hregen]
          unfold regenerateJobFound processJob
          rw [hgen]
        · have h1 := getJob_updateStatus_eq
            (updateStatusClear d.store job.id .pending) job.id .generating _ hclear
          have h2 := getJob_updateStatusImage_eq _ job.id .generated (some p) _ h1
          exact h2
        · show p ∈ p :: regenFs d job
          exact List.mem_cons_self p _
    | error e =>
        refine ⟨{ store := (updateStatus
                    (updateStatusClear d.store job.id .pending) job.id
                      .generating),
                  fs := regenFs d job }, ?_, ?_⟩
        · rw [hregen]
          unfold regenerateJobFound processJob
          rw [hgen]
        · have h1 := getJob_updateStatus_eq
            (updateStatusClear d.store job.id .pending) job.id .generating _ hclear
          exact h1

/-- Witness for the amended C6: the error-status job of `regenDisk` with
the `genNew` oracle. -/
theorem regenerate_resets_then_reprocesses_witness :
    getJob (updateStatusClear regenDisk.store 1 .pending) 1 =
        some { errorJob with status := .pending, image_path := none,
                              metadata_path := none,
                              error_message := none } ∧
      (∀ p, errorJob.image_path = some p → p ∉ regenFs regenDisk errorJob) ∧
      (match genNew errorJob.id with
       | .ok p => ∃ d2, regenerateJob genNew regenDisk 1 = .ok d2 ∧
           getJob d2.store 1 =
             some { errorJob with status := .generated,
                                  image_path := some p,
                                  metadata_path := none,
                                  error_message := none } ∧
           p ∈ d2.fs
       | .error e => ∃ d2, regenerateJob genNew regenDisk 1 = .error (e, d2) ∧
           getJob d2.store 1 =
             some { errorJob with status := .generating,
                                  image_path := none,
                                  metadata_path := none,
                                  error_message := none }) :=
  regenerate_resets_then_reprocesses genNew regenDisk 1 errorJob rfl
    (by decide) (Or.inr rfl)

/-! ### Package-assembly theorems -/

/-- A job with both artifacts on disk contributes exactly one image entry
and one metadata entry. -/
theorem jobEntries_eq (fs : List String) (j : JobRec)
    (himg : ∃ p, j.image_path = some p ∧ p ∈ fs)
    (hmeta : ∃ q, j.metadata_path = some q ∧ q ∈ fs) :
    jobEntries fs j =
      [{ name := toString j.edition_in_drop ++ ".png", kind := EntryKind.image },
       { name := toString j.edition_in_drop ++ ".json",
         kind := EntryKind.metadata }] := by
  obtain ⟨p, hp, hpm⟩ := himg
  obtain ⟨q, hq, hqm⟩ := hmeta
  unfold jobEntries
  rw [hp, hq]
  simp [hpm, hqm]

/-- Entry counts of the archive body over jobs with all artifacts present. -/
theorem flatMap_jobEntries_counts (fs : List String) :
    ∀ approvedJobs : List JobRec,
      (∀ j ∈ approvedJobs, (∃ p, j.image_path = some p ∧ p ∈ fs) ∧
          (∃ q, j.metadata_path = some q ∧ q ∈ fs)) →
      (approvedJobs.flatMap (jobEntries fs)).countP
          (fun en => en.kind == EntryKind.image) = approvedJobs.length ∧
        (approvedJobs.flatMap (jobEntries fs)).countP
          (fun en => en.kind == EntryKind.metadata) = approvedJobs.length ∧
        (approvedJobs.flatMap (jobEntries fs)).countP
          (fun en => en.kind == EntryKind.manifest) = 0 := by
  intro approvedJobs
  induction approvedJobs with
  | nil => intro _; exact ⟨rfl, rfl, rfl⟩
  | cons j rest ih =>
      intro h
      have hj := h j (List.mem_cons_self j rest)
      obtain ⟨ih1, ih2, ih3⟩ := ih (fun u hu => h u (List.mem_cons_of_mem j hu))
      rw [List.flatMap_cons, jobEntries_eq fs j hj.1 hj.2]
      refine ⟨?_, ?_, ?_⟩ <;>
        simp [List.countP_append, List.countP_cons, ih1, ih2, ih3]

/-- C8: package assembly over a collection with zero approved jobs fails
with the no-approved-jobs error and produces no archive; over `N` approved
jobs whose image and metadata artifacts are all present it produces an
archive with exactly `N` image entries, exactly `N` metadata entries and
exactly one collection-manifest entry. -/
theorem createCollectionPackage_counts :
    (∀ (c : CollectionRec) (d : DiskState) (collectionId : Nat),
        findByCollectionId d.store collectionId (some .approved) none = [] →
        createCollectionPackage (some c) d collectionId =
            .error "No approved jobs found for collection" ∧
          ∀ entries, createCollectionPackage (some c) d collectionId ≠ .ok entries) ∧
      (∀ (c : CollectionRec) (d : DiskState) (collectionId : Nat),
        (∀ j ∈ findByCollectionId d.store collectionId (some .approved) none,
            (∃ p, j.image_path = some p ∧ p ∈ d.fs) ∧
              (∃ q, j.metadata_path = some q ∧ q ∈ d.fs)) →
        findByCollectionId d.store collectionId (some .approved) none ≠ [] →
        ∃ entries, createCollectionPackage (some c) d collectionId = .ok entries ∧
          entries.countP (fun en => en.kind == EntryKind.image) =
            (findByCollectionId d.store collectionId (some .approved) none).length ∧
          entries.countP (fun en => en.kind == EntryKind.metadata) =
            (findByCollectionId d.store collectionId (some .approved) none).length ∧
          entries.countP (fun en => en.kind == EntryKind.manifest) = 1) := by
  constructor
  · intro c d collectionId h
    have : createCollectionPackage (some c) d collectionId =
        .error "No approved jobs found for collection" := by
      unfold createCollectionPackage
      rw [h]
      rfl
    exact ⟨this, fun entries hok => by rw [this] at hok; cases hok⟩
  · intro c d collectionId hart hne
    have hlen : (findByCollectionId d.store collectionId (some .approved) none).length ≠ 0 :=
      fun hc => hne (List.length_eq_zero.mp hc)
    refine ⟨packageEntries d.fs
      (findByCollectionId d.store collectionId (some .approved) none), ?_, ?_⟩
    · unfold createCollectionPackage
      rw [if_neg hlen]
    · obtain ⟨h1, h2, h3⟩ := flatMap_jobEntries_counts d.fs
        (findByCollectionId d.store collectionId (some .approved) none) hart
      unfold packageEntries
      refine ⟨?_, ?_, ?_⟩ <;>
        simp [List.countP_cons, List.countP_append, h1, h2, h3]

/-- Witness for C8: an empty collection fails; a one-job collection with
both artifacts present yields one image, one metadata and one manifest
entry. -/
theorem createCollectionPackage_counts_witness :
    (createCollectionPackage (some coll1) emptyDisk 1 =
          .error "No approved jobs found for collection" ∧
        ∀ entries, createCollectionPackage (some coll1) emptyDisk 1 ≠ .ok entries) ∧
      (∃ entries, createCollectionPackage (some coll1) packDisk 1 = .ok entries ∧
        entries.countP (fun en => en.kind == EntryKind.image) =
          (findByCollectionId packDisk.store 1 (some .approved) none).length ∧
        entries.countP (fun en => en.kind == EntryKind.metadata) =
          (findByCollectionId packDisk.store 1 (some .approved) none).length ∧
        entries.countP (fun en => en.kind == EntryKind.manifest) = 1) :=
  ⟨createCollectionPackage_counts.1 coll1 emptyDisk 1 rfl,
   createCollectionPackage_counts.2 coll1 packDisk 1 (by decide) (by decide)⟩

end NFTGen

